import Mathlib

/-!
Shallow embedding of `app/src/main/cpp/llama_android.cpp` (the JNI bridge of
the Dazuoye repository) and verification of its specification.

External llama.cpp primitives (`llama_load_model_from_file`,
`llama_new_context_with_model`, `llama_tokenize`, `llama_decode`,
`llama_sampler_sample`, `llama_token_to_piece`, `llama_get_embeddings_seq`,
`llama_get_embeddings`) are modelled as oracles: per-call environments that
fix the outcome of each external call.  Side effects on native resources
(backend init/teardown, load attempts, frees) are recorded as event traces.
Strings are modelled as `List Char`, `float` vectors as `List ℝ`.
-/

namespace LlamaJNI

/-- Native-side effects performed by the bridge, recorded in order. -/
inductive GEvent : Type
  | backendInit
  | numaInit
  | loadAttempt (nGpuLayers : Int)
  | ctxAttempt (model : Nat)
  | freeCtx (c : Nat)
  | freeModelEv (m : Nat)
  | backendFree
  deriving DecidableEq, Repr

/-- The `llama_context_wrapper` struct: model and ctx pointers (0 = null),
    plus the GPU bookkeeping fields. -/
structure Wrapper where
  model : Nat
  ctx : Nat
  usingGpu : Bool
  gpuLayers : Int
  deriving DecidableEq, Repr

/-- The `embedding_context_wrapper` struct. -/
structure EWrapper where
  model : Nat
  ctx : Nat
  nEmbd : Nat
  deriving DecidableEq, Repr

/-- Oracle for the external loading primitives used by one init call:
    `loadModel n` is the result of `llama_load_model_from_file` with
    `n_gpu_layers = n` (none = null), `newCtx m` the result of
    `llama_new_context_with_model` on model `m`, and `vulkanAvailable`
    the result of `detect_vulkan_available()`. -/
structure LoadEnv where
  loadModel : Int → Option Nat
  newCtx : Nat → Option Nat
  vulkanAvailable : Bool

/-- `Java_..._initModel` (lines 45-97): unconditional backend init, CPU-only
    load, context build; on context failure the model is freed and 0 is
    returned.  Result: the handle (`none` = 0) and the native event trace. -/
def initModel (env : LoadEnv) : Option Wrapper × List GEvent :=
  let ev0 : List GEvent := [GEvent.backendInit, GEvent.numaInit, GEvent.loadAttempt 0]
  match env.loadModel 0 with
  | none => (none, ev0)
  | some m =>
      match env.newCtx m with
      | none => (none, ev0 ++ [GEvent.ctxAttempt m, GEvent.freeModelEv m])
      | some c => (some ⟨m, c, false, 0⟩, ev0 ++ [GEvent.ctxAttempt m])

/-- GPU negotiation of `initModelWithGpu` (lines 124-143): returns
    (`gpu_available`, `actual_gpu_layers`). -/
def resolveGpu (vulkanAvailable : Bool) (useGpu : Bool) (gpuLayers : Int) :
    Bool × Int :=
  if useGpu then
    if vulkanAvailable then (true, if gpuLayers < 0 then 99 else gpuLayers)
    else (false, 0)
  else (false, 0)

/-- Load with CPU fallback (lines 146-155): first attempt with the resolved
    layer count; if it fails while `gpu_available && actual_gpu_layers > 0`,
    retry exactly once with 0 layers and clear the GPU flags.  Returns the
    loaded model (if any), the updated flags, and the load-attempt trace. -/
def loadWithFallback (env : LoadEnv) (ga : Bool) (actual : Int) :
    Option Nat × Bool × Int × List GEvent :=
  match env.loadModel actual with
  | some m => (some m, ga, actual, [GEvent.loadAttempt actual])
  | none =>
      if ga = true ∧ 0 < actual then
        (env.loadModel 0, false, 0, [GEvent.loadAttempt actual, GEvent.loadAttempt 0])
      else (none, ga, actual, [GEvent.loadAttempt actual])

/-- `Java_..._initModelWithGpu` (lines 102-192). -/
def initModelWithGpu (env : LoadEnv) (useGpu : Bool) (gpuLayers : Int) :
    Option Wrapper × List GEvent :=
  let ev0 : List GEvent := [GEvent.backendInit, GEvent.numaInit]
  let r := resolveGpu env.vulkanAvailable useGpu gpuLayers
  match loadWithFallback env r.1 r.2 with
  | (none, _, _, evs) => (none, ev0 ++ evs)
  | (some m, ga, actual, evs) =>
      match env.newCtx m with
      | none => (none, ev0 ++ evs ++ [GEvent.ctxAttempt m, GEvent.freeModelEv m])
      | some c =>
          (some ⟨m, c, ga && decide (0 < actual), actual⟩,
           ev0 ++ evs ++ [GEvent.ctxAttempt m])

/-- `Java_..._initEmbeddingModel` (lines 534-592).  `backendInitialized` is
    the function-local `static bool` guard; `nEmbdOf` models
    `llama_n_embd`.  Returns the updated guard, the handle, and the trace. -/
def initEmbeddingModel (backendInitialized : Bool) (env : LoadEnv)
    (nEmbdOf : Nat → Nat) : Bool × Option EWrapper × List GEvent :=
  let p : Bool × List GEvent :=
    if backendInitialized then (true, [])
    else (true, [GEvent.backendInit, GEvent.numaInit])
  match env.loadModel 0 with
  | none => (p.1, none, p.2 ++ [GEvent.loadAttempt 0])
  | some m =>
      match env.newCtx m with
      | none =>
          (p.1, none,
           p.2 ++ [GEvent.loadAttempt 0, GEvent.ctxAttempt m, GEvent.freeModelEv m])
      | some c =>
          (p.1, some ⟨m, c, nEmbdOf m⟩,
           p.2 ++ [GEvent.loadAttempt 0, GEvent.ctxAttempt m])

/-- `Java_..._isUsingGpu` (lines 197-209): handle 0 reports false. -/
def isUsingGpu : Option Wrapper → Bool
  | none => false
  | some w => w.usingGpu

/-- `Java_..._getGpuLayers` (lines 211-223): handle 0 reports 0. -/
def getGpuLayers : Option Wrapper → Int
  | none => 0
  | some w => w.gpuLayers

/-- `Java_..._getEmbeddingDimension` (lines 597-609). -/
def getEmbeddingDimension : Option EWrapper → Nat
  | none => 0
  | some w => w.nEmbd

/-- Outcome of a free call: a normal return, or a dereference of memory
    that is no longer allocated (`delete`d wrapper), which is undefined
    behaviour in the C++ source. -/
inductive FreeOutcome : Type
  | ok
  | useAfterFree
  deriving DecidableEq, Repr

/-- `Java_..._freeModel` (lines 350-375), with the process heap of live
    generation wrappers made explicit as an association list from handle
    values to wrappers.  Handle 0 returns immediately (warning log).  A
    handle absent from the heap means the wrapper was already `delete`d:
    reading `wrapper->ctx` is then a use after free.  A live handle frees
    ctx then model (null-guarded), deletes the wrapper, and calls
    `llama_backend_free()`. -/
def freeModel (heap : List (Nat × Wrapper)) (h : Nat) :
    FreeOutcome × List (Nat × Wrapper) × List GEvent :=
  if h = 0 then (FreeOutcome.ok, heap, [])
  else
    match List.lookup h heap with
    | none => (FreeOutcome.useAfterFree, heap, [])
    | some w =>
        (FreeOutcome.ok, heap.filter fun kv => kv.1 != h,
         (if w.ctx ≠ 0 then [GEvent.freeCtx w.ctx] else []) ++
           (if w.model ≠ 0 then [GEvent.freeModelEv w.model] else []) ++
           [GEvent.backendFree])

/-- `Java_..._freeEmbeddingModel` (lines 715-738): same shape as
    `freeModel` but without the `llama_backend_free()` call. -/
def freeEmbeddingModel (heap : List (Nat × EWrapper)) (h : Nat) :
    FreeOutcome × List (Nat × EWrapper) × List GEvent :=
  if h = 0 then (FreeOutcome.ok, heap, [])
  else
    match List.lookup h heap with
    | none => (FreeOutcome.useAfterFree, heap, [])
    | some w =>
        (FreeOutcome.ok, heap.filter fun kv => kv.1 != h,
         (if w.ctx ≠ 0 then [GEvent.freeCtx w.ctx] else []) ++
           (if w.model ≠ 0 then [GEvent.freeModelEv w.model] else []))

/-- A sequence of `initEmbeddingModel` calls threading the static guard,
    concatenating the native event traces. -/
def runEmbedCalls (flag : Bool) : List (LoadEnv × (Nat → Nat)) → Bool × List GEvent
  | [] => (flag, [])
  | e :: rest =>
      let r := initEmbeddingModel flag e.1 e.2
      let rr := runEmbedCalls r.1 rest
      (rr.1, r.2.2 ++ rr.2)

/-- Test for the backend-initialization event. -/
def isBackendInit : GEvent → Bool
  | GEvent.backendInit => true
  | _ => false

/-- Number of `llama_backend_init()` calls recorded in a trace. -/
def countBackendInit (es : List GEvent) : Nat := (es.filter isBackendInit).length

/-- The load-attempt layer counts recorded in a trace, in order. -/
def loadAttemptsOf (es : List GEvent) : List Int :=
  es.filterMap fun e =>
    match e with
    | GEvent.loadAttempt n => some n
    | _ => none

/- ### Generation (lines 225-514) -/

/-- The literal stop marker checked by both generation loops. -/
def marker : List Char := "<|im_end|>".data

/-- Index of the first occurrence of `m` as a contiguous sublist of `s`
    (the `std::string::find` of the source), if any. -/
def firstOccur (m : List Char) : List Char → Option Nat
  | [] => if m.isPrefixOf [] then some 0 else none
  | a :: s =>
      if m.isPrefixOf (a :: s) then some 0
      else (firstOccur m s).map (· + 1)

/-- `result.find(m) != std::string::npos` of the source. -/
def containsSub (m s : List Char) : Bool := (firstOccur m s).isSome

/-- `result.substr(0, result.find(marker))` (lines 328-329): truncate at
    the start of the first occurrence of the stop marker. -/
def truncAtMarker (s : List Char) : List Char :=
  match firstOccur marker s with
  | some p => s.take p
  | none => s

/-- Oracle outcome of one iteration of the generation loop: the sampled
    token is end-of-generation; or it detokenizes to a nonempty piece `p`
    (`n_piece > 0`) and the subsequent one-token `llama_decode` returns
    `decodeOk`; or `n_piece <= 0` (no text appended) with decode outcome
    `decodeOk`. -/
inductive GenStep : Type
  | eog
  | piece (p : List Char) (decodeOk : Bool)
  | emptyPiece (decodeOk : Bool)

/-- Oracle for one generate / generateStream call: tokenization outcome
    (`n_tokens >= 0`), prompt-decode outcome, and the per-iteration steps
    (indexed by the number of completed iterations). -/
structure GenEnv where
  tokenizeOk : Bool
  promptDecodeOk : Bool
  steps : Nat → GenStep

/-- The `while (n_generated < maxTokens)` loop of the blocking `generate`
    (lines 308-342): sample; stop on EOG; append the piece; if the
    accumulated result now contains the marker, truncate at it and stop;
    decode the new token, stopping (keeping the accumulated text) on
    decode failure. -/
def generateLoop (steps : Nat → GenStep) : Nat → Nat → List Char → List Char
  | _, 0, acc => acc
  | i, fuel + 1, acc =>
      match steps i with
      | GenStep.eog => acc
      | GenStep.emptyPiece dok =>
          if dok then generateLoop steps (i + 1) fuel acc else acc
      | GenStep.piece p dok =>
          let acc' := acc ++ p
          if containsSub marker acc' then truncAtMarker acc'
          else if dok then generateLoop steps (i + 1) fuel acc' else acc'

/-- `Java_..._generate` (lines 225-348): returns `""` on a null handle,
    tokenization failure, or prompt-decode failure; otherwise runs the
    generation loop on an empty accumulator. -/
def generate (handleValid : Bool) (env : GenEnv) (maxTokens : Int) : List Char :=
  if !handleValid then []
  else if !env.tokenizeOk then []
  else if !env.promptDecodeOk then []
  else generateLoop env.steps 0 maxTokens.toNat []

/-- Events delivered to the streaming callback object. -/
inductive SinkEvent : Type
  | onToken (p : List Char)
  | onComplete
  | onError (msg : List Char)
  deriving DecidableEq, Repr

/-- The generation loop of `generateStream` (lines 471-508): as the
    blocking loop, but each appended piece is delivered via `onToken` -
    except the piece that completes the stop marker, which is not
    delivered; decode failure ends the loop silently. -/
def generateStreamLoop (steps : Nat → GenStep) :
    Nat → Nat → List Char → List SinkEvent
  | _, 0, _ => []
  | i, fuel + 1, acc =>
      match steps i with
      | GenStep.eog => []
      | GenStep.emptyPiece dok =>
          if dok then generateStreamLoop steps (i + 1) fuel acc else []
      | GenStep.piece p dok =>
          let acc' := acc ++ p
          if containsSub marker acc' then []
          else
            SinkEvent.onToken p ::
              (if dok then generateStreamLoop steps (i + 1) fuel acc' else [])

/-- `Java_..._generateStream` (lines 377-514).  `handleValid` is
    `modelHandle != 0`; `callbackOk` is resolution of the three callback
    method ids (lines 399-408).  Note: on an invalid handle or unresolved
    callbacks the function returns without delivering any event. -/
def generateStream (handleValid : Bool) (callbackOk : Bool) (env : GenEnv)
    (maxTokens : Int) : List SinkEvent :=
  if !handleValid then []
  else if !callbackOk then []
  else if !env.tokenizeOk then [SinkEvent.onError "Failed to tokenize prompt".data]
  else if !env.promptDecodeOk then [SinkEvent.onError "Failed to decode prompt".data]
  else generateStreamLoop env.steps 0 maxTokens.toNat [] ++ [SinkEvent.onComplete]

/- ### Embedding (lines 611-710) -/

/-- Oracle for one `getEmbedding` call: tokenization and decode outcomes,
    the pooled embedding pointer for sequence 0 (`llama_get_embeddings_seq`)
    and the context-wide pointer (`llama_get_embeddings`), each a memory
    holding floats when non-null, and the `NewFloatArray` outcome. -/
structure EmbedEnv where
  tokenizeOk : Bool
  decodeOk : Bool
  seqEmbd : Option (Nat → ℝ)
  ctxEmbd : Option (Nat → ℝ)
  allocOk : Bool

/-- Sum of squares of a vector (the `norm` accumulation, lines 691-694). -/
def l2NormSq (v : List ℝ) : ℝ := (v.map fun x => x * x).sum

/-- L2 normalization (lines 689-704): divide by the Euclidean norm when it
    is positive, otherwise return the vector unchanged. -/
noncomputable def l2Normalize (v : List ℝ) : List ℝ :=
  let norm := Real.sqrt (l2NormSq v)
  if 0 < norm then v.map fun x => x / norm else v

/-- The raw vector read from the embedding pointer: `n_embd` floats
    starting at the pointer returned by the seq/ctx fallback. -/
noncomputable def rawVec (h : Option EWrapper) (env : EmbedEnv) : List ℝ :=
  match h, env.seqEmbd.orElse (fun _ => env.ctxEmbd) with
  | some w, some mem => (List.range w.nEmbd).map mem
  | _, _ => []

/-- `Java_..._getEmbedding` (lines 617-710): null handle, tokenize failure,
    decode failure, both embedding pointers null, or array allocation
    failure return null; otherwise the L2-normalized raw vector. -/
noncomputable def getEmbedding (h : Option EWrapper) (env : EmbedEnv) :
    Option (List ℝ) :=
  match h with
  | none => none
  | some w =>
      if !env.tokenizeOk then none
      else if !env.decodeOk then none
      else
        match env.seqEmbd.orElse (fun _ => env.ctxEmbd) with
        | none => none
        | some mem =>
            if !env.allocOk then none
            else some (l2Normalize ((List.range w.nEmbd).map mem))

/-! ## Helper lemmas -/

theorem firstOccur_isPrefix {m : List Char} :
    ∀ {s : List Char} {p : Nat}, firstOccur m s = some p → m <+: s.drop p := by
  intro s
  induction s with
  | nil =>
    intro p h
    simp only [firstOccur] at h
    split at h
    · next hp =>
      cases h
      simpa using List.isPrefixOf_iff_prefix.mp hp
    · cases h
  | cons a s ih =>
    intro p h
    simp only [firstOccur] at h
    split at h
    · next hp =>
      cases h
      simpa using List.isPrefixOf_iff_prefix.mp hp
    · next hp =>
      rcases Option.map_eq_some'.mp h with ⟨p', hp', rfl⟩
      simpa [List.drop_succ_cons] using ih hp'

theorem firstOccur_min {m : List Char} :
    ∀ {s : List Char} {p : Nat}, firstOccur m s = some p →
      ∀ q, q < p → ¬ m <+: s.drop q := by
  intro s
  induction s with
  | nil =>
    intro p h q hq
    simp only [firstOccur] at h
    split at h
    · cases h; omega
    · cases h
  | cons a s ih =>
    intro p h q hq
    simp only [firstOccur] at h
    split at h
    · cases h; omega
    · next hp =>
      rcases Option.map_eq_some'.mp h with ⟨p', hp', rfl⟩
      cases q with
      | zero =>
        intro hpre
        exact hp (List.isPrefixOf_iff_prefix.mpr (by simpa using hpre))
      | succ q' =>
        simpa [List.drop_succ_cons] using ih hp' q' (by omega)

theorem firstOccur_none {m : List Char} :
    ∀ {s : List Char}, firstOccur m s = none → ∀ q, ¬ m <+: s.drop q := by
  intro s
  induction s with
  | nil =>
    intro h q hpre
    simp only [firstOccur] at h
    split at h
    · cases h
    · next hp =>
      exact hp (List.isPrefixOf_iff_prefix.mpr (by simpa using hpre))
  | cons a s ih =>
    intro h q
    simp only [firstOccur] at h
    split at h
    · cases h
    · next hp =>
      have h' : firstOccur m s = none := by
        cases hfo : firstOccur m s with
        | none => rfl
        | some p => rw [hfo] at h; simp at h
      cases q with
      | zero =>
        intro hpre
        exact hp (List.isPrefixOf_iff_prefix.mpr (by simpa using hpre))
      | succ q' =>
        simpa [List.drop_succ_cons] using ih h' q'

theorem infix_iff_drop {m s : List Char} : m <:+: s ↔ ∃ q, m <+: s.drop q := by
  constructor
  · rintro ⟨t, u, rfl⟩
    refine ⟨t.length, ?_⟩
    rw [List.append_assoc, List.drop_left]
    exact List.prefix_append m u
  · rintro ⟨q, hq⟩
    exact hq.isInfix.trans (List.drop_suffix q s).isInfix

theorem not_infix_of_containsSub_eq_false {m s : List Char}
    (h : containsSub m s = false) : ¬ m <:+: s := by
  intro hinf
  rcases infix_iff_drop.mp hinf with ⟨q, hq⟩
  have hn : firstOccur m s = none := by
    cases hfo : firstOccur m s with
    | none => rfl
    | some p => simp [containsSub, hfo] at h
  exact firstOccur_none hn q hq

theorem not_infix_take_firstOccur {m s : List Char} {p : Nat} (hm : m ≠ [])
    (h : firstOccur m s = some p) : ¬ m <:+: s.take p := by
  intro hinf
  rcases infix_iff_drop.mp hinf with ⟨q, hq⟩
  have hlen : m.length ≤ ((s.take p).drop q).length := hq.length_le
  have hmpos : 0 < m.length := List.length_pos.mpr hm
  have hd : ((s.take p).drop q).length = (s.take p).length - q :=
    List.length_drop q (s.take p)
  have htl : (s.take p).length ≤ p := List.length_take_le p s
  have hqp : q < p := by omega
  have hq' : m <+: s.drop q := by
    rw [List.drop_take] at hq
    exact hq.trans (List.take_prefix (p - q) (s.drop q))
  exact firstOccur_min h q hqp hq'

theorem truncAtMarker_not_infix {s : List Char} (h : containsSub marker s = true) :
    ¬ marker <:+: truncAtMarker s := by
  rcases Option.isSome_iff_exists.mp (by simpa [containsSub] using h) with ⟨p, hp⟩
  rw [truncAtMarker, hp]
  exact not_infix_take_firstOccur (by decide) hp

theorem generateLoop_not_infix (steps : Nat → GenStep) :
    ∀ (fuel i : Nat) (acc : List Char), ¬ marker <:+: acc →
      ¬ marker <:+: generateLoop steps i fuel acc := by
  intro fuel
  induction fuel with
  | zero =>
    intro i acc h
    simpa [generateLoop] using h
  | succ fuel ih =>
    intro i acc h
    cases hs : steps i with
    | eog => simpa [generateLoop, hs] using h
    | emptyPiece dok =>
      cases dok with
      | true => simpa [generateLoop, hs] using ih (i + 1) acc h
      | false => simpa [generateLoop, hs] using h
    | piece p dok =>
      by_cases hc : containsSub marker (acc ++ p) = true
      · simpa [generateLoop, hs, hc] using truncAtMarker_not_infix hc
      · rw [Bool.not_eq_true] at hc
        have hni : ¬ marker <:+: acc ++ p := not_infix_of_containsSub_eq_false hc
        cases dok with
        | true => simpa [generateLoop, hs, hc] using ih (i + 1) (acc ++ p) hni
        | false => simpa [generateLoop, hs, hc] using hni

theorem generateStreamLoop_onToken (steps : Nat → GenStep) :
    ∀ (fuel i : Nat) (acc : List Char) (e : SinkEvent),
      e ∈ generateStreamLoop steps i fuel acc → ∃ p, e = SinkEvent.onToken p := by
  intro fuel
  induction fuel with
  | zero =>
    intro i acc e h
    simp [generateStreamLoop] at h
  | succ fuel ih =>
    intro i acc e h
    cases hs : steps i with
    | eog => simp [generateStreamLoop, hs] at h
    | emptyPiece dok =>
      cases dok with
      | true => exact ih (i + 1) acc e (by simpa [generateStreamLoop, hs] using h)
      | false => simp [generateStreamLoop, hs] at h
    | piece p dok =>
      by_cases hc : containsSub marker (acc ++ p) = true
      · simp [generateStreamLoop, hs, hc] at h
      · rw [Bool.not_eq_true] at hc
        simp only [generateStreamLoop, hs, hc] at h
        rcases (by simpa using h :
            e = SinkEvent.onToken p ∨
              dok = true ∧ e ∈ generateStreamLoop steps (i + 1) fuel (acc ++ p)) with
          he | ⟨_, he⟩
        · exact ⟨p, he⟩
        · exact ih (i + 1) (acc ++ p) e he

theorem lookup_filter_erased {β : Type} (h : Nat) :
    ∀ heap : List (Nat × β),
      List.lookup h (heap.filter fun kv => kv.1 != h) = none := by
  intro heap
  induction heap with
  | nil => rfl
  | cons a rest ih =>
    by_cases hah : a.1 = h
    · simp [List.filter, hah, ih]
    · simp only [List.filter_cons]
      rw [if_pos (by simpa using hah)]
      have hba : (h == a.1) = false := by simpa using Ne.symm hah
      simp [List.lookup, hba, ih]

theorem countBackendInit_append (a b : List GEvent) :
    countBackendInit (a ++ b) = countBackendInit a + countBackendInit b := by
  simp [countBackendInit, List.filter_append]

theorem getLast?_append_last {ys : List GEvent} (xs : List GEvent) {b : GEvent}
    (h : ys.getLast? = some b) : (xs ++ ys).getLast? = some b := by
  have hne : ys ≠ [] := by
    intro he
    rw [he] at h
    simp at h
  rw [List.getLast?_append_of_ne_nil xs hne, h]

theorem initEmbeddingModel_flag (flag : Bool) (env : LoadEnv) (ne : Nat → Nat) :
    (initEmbeddingModel flag env ne).1 = true := by
  unfold initEmbeddingModel
  cases flag <;> cases h : env.loadModel 0 <;> simp [h]
  all_goals cases h2 : env.newCtx _ <;> simp [h2]

theorem countBackendInit_initEmbedding_true (env : LoadEnv) (ne : Nat → Nat) :
    countBackendInit (initEmbeddingModel true env ne).2.2 = 0 := by
  unfold initEmbeddingModel
  cases h : env.loadModel 0 with
  | none => simp [countBackendInit, isBackendInit]
  | some m =>
    cases h2 : env.newCtx m <;>
      simp [h2, countBackendInit, isBackendInit]

theorem countBackendInit_initEmbedding_false (env : LoadEnv) (ne : Nat → Nat) :
    countBackendInit (initEmbeddingModel false env ne).2.2 = 1 := by
  unfold initEmbeddingModel
  cases h : env.loadModel 0 with
  | none => simp [countBackendInit, isBackendInit]
  | some m =>
    cases h2 : env.newCtx m <;>
      simp [h2, countBackendInit, isBackendInit]

theorem runEmbedCalls_true (calls : List (LoadEnv × (Nat → Nat))) :
    (runEmbedCalls true calls).1 = true ∧
      countBackendInit (runEmbedCalls true calls).2 = 0 := by
  induction calls with
  | nil => exact ⟨rfl, rfl⟩
  | cons e rest ih =>
    have hf := initEmbeddingModel_flag true e.1 e.2
    have hc := countBackendInit_initEmbedding_true e.1 e.2
    simp only [runEmbedCalls, hf]
    exact ⟨ih.1, by rw [countBackendInit_append, hc, ih.2]⟩

theorem countBackendInit_loadWithFallback (env : LoadEnv) (ga : Bool) (actual : Int) :
    countBackendInit (loadWithFallback env ga actual).2.2.2 = 0 := by
  unfold loadWithFallback
  cases h : env.loadModel actual with
  | some m => simp [countBackendInit, isBackendInit]
  | none =>
    rcases Classical.em (ga = true ∧ 0 < actual) with hg | hg
    · rw [if_pos hg]
      simp [countBackendInit, isBackendInit]
    · rw [if_neg hg]
      simp [countBackendInit, isBackendInit]

theorem l2NormSq_cons (x : ℝ) (v : List ℝ) :
    l2NormSq (x :: v) = x * x + l2NormSq v := by
  simp [l2NormSq]

theorem l2NormSq_nonneg (v : List ℝ) : 0 ≤ l2NormSq v := by
  induction v with
  | nil => simp [l2NormSq]
  | cons x v ih =>
    rw [l2NormSq_cons]
    have := mul_self_nonneg x
    linarith

theorem l2NormSq_map_div (v : List ℝ) {c : ℝ} (hc : c ≠ 0) :
    l2NormSq (v.map fun x => x / c) = l2NormSq v / (c * c) := by
  induction v with
  | nil => simp [l2NormSq]
  | cons x v ih =>
    rw [List.map_cons, l2NormSq_cons, l2NormSq_cons, ih]
    field_simp

theorem length_l2Normalize (v : List ℝ) : (l2Normalize v).length = v.length := by
  simp only [l2Normalize]
  split <;> simp

/-! ## Claims -/

/-- C1 counterexample: a `generateStream` call with an invalid (zero) handle
    returns without delivering any sink event at all — in particular no
    `onError` terminal event, refuting the claim that every call ends with
    exactly one terminal event and that an invalid handle yields `onError`. -/
theorem generateStream_invalid_handle_no_events :
    generateStream false true ⟨true, true, fun _ => GenStep.eog⟩ 1 = [] := rfl

/-- C1 (amended): when the handle is valid and the three callback methods
    resolve, the sink receives zero or more `onToken` events followed by
    exactly one terminal event (`onComplete` or `onError`); but when the
    handle is invalid/zero, or when the callbacks cannot be resolved, the
    call returns without emitting any event (no `onError`). -/
theorem generateStream_event_shape :
    (∀ (env : GenEnv) (maxTokens : Int), ∃ ts : List SinkEvent,
        (∀ e ∈ ts, ∃ p, e = SinkEvent.onToken p) ∧
        (generateStream true true env maxTokens = ts ++ [SinkEvent.onComplete] ∨
          ∃ msg, generateStream true true env maxTokens = ts ++ [SinkEvent.onError msg])) ∧
    (∀ (cb : Bool) (env : GenEnv) (maxTokens : Int),
        generateStream false cb env maxTokens = []) ∧
    (∀ (env : GenEnv) (maxTokens : Int),
        generateStream true false env maxTokens = []) := by
  refine ⟨?_, fun _ _ _ => rfl, fun _ _ => rfl⟩
  intro env mt
  cases htok : env.tokenizeOk with
  | false =>
    exact ⟨[], by simp,
      Or.inr ⟨"Failed to tokenize prompt".data, by simp [generateStream, htok]⟩⟩
  | true =>
    cases hdec : env.promptDecodeOk with
    | false =>
      exact ⟨[], by simp,
        Or.inr ⟨"Failed to decode prompt".data, by simp [generateStream, htok, hdec]⟩⟩
    | true =>
      refine ⟨generateStreamLoop env.steps 0 mt.toNat [], ?_, Or.inl ?_⟩
      · intro e he
        exact generateStreamLoop_onToken env.steps _ _ _ e he
      · simp [generateStream, htok, hdec]

/-- C1 witness: the no-event paths of `generateStream_event_shape`
    evaluated on a concrete environment. -/
theorem generateStream_event_shape_witness :
    generateStream false true ⟨true, true, fun _ => GenStep.emptyPiece true⟩ 2 = [] ∧
    generateStream true false ⟨true, true, fun _ => GenStep.emptyPiece true⟩ 2 = [] :=
  ⟨generateStream_event_shape.2.1 true ⟨true, true, fun _ => GenStep.emptyPiece true⟩ 2,
   generateStream_event_shape.2.2 ⟨true, true, fun _ => GenStep.emptyPiece true⟩ 2⟩

/-- C2 counterexample: freeing the same nonzero live handle twice is not a
    safe no-op: the first call succeeds and deletes the wrapper, and the
    second call dereferences the freed wrapper (use after free). -/
theorem free_twice_use_after_free :
    (freeModel [(1, ⟨5, 6, false, 0⟩)] 1).1 = FreeOutcome.ok ∧
    (freeModel (freeModel [(1, ⟨5, 6, false, 0⟩)] 1).2.1 1).1 =
      FreeOutcome.useAfterFree := ⟨rfl, rfl⟩

/-- C2 (amended): `freeModel` and `freeEmbeddingModel` are safe no-ops on
    handle 0 (any number of times); on a live nonzero handle the first call
    succeeds, but the native layer cannot invalidate the caller's handle,
    so a second call on the same nonzero handle dereferences freed memory
    and is not safe. -/
theorem free_zero_noop_and_double_free :
    (∀ heap : List (Nat × Wrapper), freeModel heap 0 = (FreeOutcome.ok, heap, [])) ∧
    (∀ eheap : List (Nat × EWrapper),
        freeEmbeddingModel eheap 0 = (FreeOutcome.ok, eheap, [])) ∧
    (∀ (heap : List (Nat × Wrapper)) (h : Nat) (w : Wrapper), h ≠ 0 →
        List.lookup h heap = some w →
        (freeModel heap h).1 = FreeOutcome.ok ∧
        (freeModel (freeModel heap h).2.1 h).1 = FreeOutcome.useAfterFree) ∧
    (∀ (eheap : List (Nat × EWrapper)) (h : Nat) (w : EWrapper), h ≠ 0 →
        List.lookup h eheap = some w →
        (freeEmbeddingModel eheap h).1 = FreeOutcome.ok ∧
        (freeEmbeddingModel (freeEmbeddingModel eheap h).2.1 h).1 =
          FreeOutcome.useAfterFree) := by
  refine ⟨fun heap => by simp [freeModel], fun eheap => by simp [freeEmbeddingModel],
    ?_, ?_⟩
  · intro heap h w hh hl
    constructor
    · simp [freeModel, hh, hl]
    · simp [freeModel, hh, hl, lookup_filter_erased]
  · intro eheap h w hh hl
    constructor
    · simp [freeEmbeddingModel, hh, hl]
    · simp [freeEmbeddingModel, hh, hl, lookup_filter_erased]

/-- C2 witness: the double-free conjuncts applied to concrete one-element
    heaps. -/
theorem free_zero_noop_and_double_free_witness :
    ((freeModel [(2, ⟨7, 8, true, 1⟩)] 2).1 = FreeOutcome.ok ∧
      (freeModel (freeModel [(2, ⟨7, 8, true, 1⟩)] 2).2.1 2).1 =
        FreeOutcome.useAfterFree) ∧
    ((freeEmbeddingModel [(3, ⟨9, 10, 384⟩)] 3).1 = FreeOutcome.ok ∧
      (freeEmbeddingModel (freeEmbeddingModel [(3, ⟨9, 10, 384⟩)] 3).2.1 3).1 =
        FreeOutcome.useAfterFree) :=
  ⟨free_zero_noop_and_double_free.2.2.1 [(2, ⟨7, 8, true, 1⟩)] 2 ⟨7, 8, true, 1⟩
      (by decide) rfl,
   free_zero_noop_and_double_free.2.2.2 [(3, ⟨9, 10, 384⟩)] 3 ⟨9, 10, 384⟩
      (by decide) rfl⟩

/-- C3 counterexample: two successive `initModel` calls record the
    process-wide backend setup (`llama_backend_init`) twice — it is not
    guarded by any initialized flag on this path, refuting "the backend
    setup runs only on the first call" for sequences of creation calls. -/
theorem initModel_twice_double_backend_init :
    countBackendInit ((initModel ⟨fun _ => none, fun _ => none, false⟩).2 ++
      (initModel ⟨fun _ => none, fun _ => none, false⟩).2) = 2 := rfl

/-- C3 (amended): only `initEmbeddingModel` guards the backend setup with
    the process-wide initialized flag (so any sequence of
    `initEmbeddingModel` calls runs the setup at most once, and never when
    the flag is already set); `initModel` and `initModelWithGpu` run the
    backend setup unconditionally on every call. -/
theorem backend_init_guard :
    (∀ env : LoadEnv, countBackendInit (initModel env).2 = 1) ∧
    (∀ (env : LoadEnv) (u : Bool) (g : Int),
        countBackendInit (initModelWithGpu env u g).2 = 1) ∧
    (∀ (env : LoadEnv) (ne : Nat → Nat),
        countBackendInit (initEmbeddingModel true env ne).2.2 = 0) ∧
    (∀ (env : LoadEnv) (ne : Nat → Nat),
        countBackendInit (initEmbeddingModel false env ne).2.2 = 1 ∧
        (initEmbeddingModel false env ne).1 = true) ∧
    (∀ calls : List (LoadEnv × (Nat → Nat)),
        countBackendInit (runEmbedCalls true calls).2 = 0) ∧
    (∀ calls : List (LoadEnv × (Nat → Nat)),
        countBackendInit (runEmbedCalls false calls).2 ≤ 1) := by
  refine ⟨?_, ?_, countBackendInit_initEmbedding_true,
    fun env ne => ⟨countBackendInit_initEmbedding_false env ne,
      initEmbeddingModel_flag false env ne⟩,
    fun calls => (runEmbedCalls_true calls).2, ?_⟩
  · intro env
    unfold initModel
    cases h : env.loadModel 0 with
    | none => simp [countBackendInit, isBackendInit]
    | some m =>
      cases h2 : env.newCtx m <;> simp [h2, countBackendInit, isBackendInit]
  · intro env u g
    rcases hlw : loadWithFallback env (resolveGpu env.vulkanAvailable u g).1
        (resolveGpu env.vulkanAvailable u g).2 with ⟨o, ga, actual, evs⟩
    have hev : countBackendInit evs = 0 := by
      have := countBackendInit_loadWithFallback env
        (resolveGpu env.vulkanAvailable u g).1 (resolveGpu env.vulkanAvailable u g).2
      rw [hlw] at this
      exact this
    cases o with
    | none =>
      rw [show (initModelWithGpu env u g).2 =
          [GEvent.backendInit, GEvent.numaInit] ++ evs from by
        simp [initModelWithGpu, hlw]]
      rw [countBackendInit_append, hev]
      rfl
    | some m =>
      cases h2 : env.newCtx m with
      | none =>
        rw [show (initModelWithGpu env u g).2 =
            [GEvent.backendInit, GEvent.numaInit] ++ evs ++
              [GEvent.ctxAttempt m, GEvent.freeModelEv m] from by
          simp [initModelWithGpu, hlw, h2]]
        rw [countBackendInit_append, countBackendInit_append, hev]
        simp [countBackendInit, isBackendInit]
      | some c =>
        rw [show (initModelWithGpu env u g).2 =
            [GEvent.backendInit, GEvent.numaInit] ++ evs ++
              [GEvent.ctxAttempt m] from by
          simp [initModelWithGpu, hlw, h2]]
        rw [countBackendInit_append, countBackendInit_append, hev]
        simp [countBackendInit, isBackendInit]
  · intro calls
    cases calls with
    | nil => simp [runEmbedCalls, countBackendInit]
    | cons e rest =>
      have hf := initEmbeddingModel_flag false e.1 e.2
      have hc := countBackendInit_initEmbedding_false e.1 e.2
      simp only [runEmbedCalls, hf]
      rw [countBackendInit_append, hc, (runEmbedCalls_true rest).2]

/-- C3 witness: the per-call counts of `backend_init_guard` evaluated on a
    concrete environment. -/
theorem backend_init_guard_witness :
    countBackendInit (initModel ⟨fun _ => some 3, fun _ => some 4, true⟩).2 = 1 ∧
    countBackendInit
      (initEmbeddingModel true ⟨fun _ => some 3, fun _ => some 4, true⟩
        (fun _ => 384)).2.2 = 0 :=
  ⟨backend_init_guard.1 ⟨fun _ => some 3, fun _ => some 4, true⟩,
   backend_init_guard.2.2.1 ⟨fun _ => some 3, fun _ => some 4, true⟩ (fun _ => 384)⟩

/-- C4: the blocking `generate` never returns text containing the literal
    stop marker: whenever an append makes the accumulated result contain
    `<|im_end|>`, the loop stops at once and returns the result truncated at
    the marker's first-occurrence start position. -/
theorem generate_no_marker :
    (∀ (hv : Bool) (env : GenEnv) (mt : Int), ¬ marker <:+: generate hv env mt) ∧
    (∀ (steps : Nat → GenStep) (i fuel : Nat) (acc p : List Char) (dok : Bool),
        steps i = GenStep.piece p dok →
        containsSub marker (acc ++ p) = true →
        generateLoop steps i (fuel + 1) acc = truncAtMarker (acc ++ p)) := by
  constructor
  · intro hv env mt
    have hnil : ¬ marker <:+: ([] : List Char) := by
      rw [List.infix_nil]
      decide
    cases hv with
    | false => simpa [generate] using hnil
    | true =>
      cases htok : env.tokenizeOk with
      | false => simpa [generate, htok] using hnil
      | true =>
        cases hdec : env.promptDecodeOk with
        | false => simpa [generate, htok, hdec] using hnil
        | true =>
          rw [show generate true env mt = generateLoop env.steps 0 mt.toNat []
            from by simp [generate, htok, hdec]]
          exact generateLoop_not_infix env.steps mt.toNat 0 [] hnil
  · intro steps i fuel acc p dok hs hc
    simp [generateLoop, hs, hc]

/-- C4 witness: the marker-free property on a run that samples the marker
    itself, and the truncation step on an accumulator completed to the
    marker. -/
theorem generate_no_marker_witness :
    (¬ marker <:+: generate true ⟨true, true, fun _ => GenStep.piece marker true⟩ 4) ∧
    generateLoop (fun _ => GenStep.piece marker true) 0 (0 + 1) [] =
      truncAtMarker ([] ++ marker) :=
  ⟨generate_no_marker.1 true ⟨true, true, fun _ => GenStep.piece marker true⟩ 4,
   generate_no_marker.2 (fun _ => GenStep.piece marker true) 0 0 [] marker true rfl
      (by decide)⟩

/-- C5: a failing per-token decode ends generation early with the text
    accumulated so far: the blocking loop returns the accumulated text
    (including the piece just appended) without signaling an error, and the
    streaming loop ends after the `onToken` events already delivered, with
    `generateStream` still appending the single terminal `onComplete`. -/
theorem decode_failure_swallowed :
    (∀ (steps : Nat → GenStep) (i fuel : Nat) (acc p : List Char),
        steps i = GenStep.piece p false →
        containsSub marker (acc ++ p) = false →
        generateLoop steps i (fuel + 1) acc = acc ++ p) ∧
    (∀ (steps : Nat → GenStep) (i fuel : Nat) (acc p : List Char),
        steps i = GenStep.piece p false →
        containsSub marker (acc ++ p) = false →
        generateStreamLoop steps i (fuel + 1) acc = [SinkEvent.onToken p]) ∧
    (∀ (env : GenEnv) (mt : Int), env.tokenizeOk = true → env.promptDecodeOk = true →
        generateStream true true env mt =
          generateStreamLoop env.steps 0 mt.toNat [] ++ [SinkEvent.onComplete]) := by
  refine ⟨?_, ?_, ?_⟩
  · intro steps i fuel acc p hs hc
    simp [generateLoop, hs, hc]
  · intro steps i fuel acc p hs hc
    simp [generateStreamLoop, hs, hc]
  · intro env mt htok hdec
    simp [generateStream, htok, hdec]

/-- C5 witness: a decode failure right after the first sampled piece, in
    both loops, and the `onComplete` terminal of a concrete stream call. -/
theorem decode_failure_swallowed_witness :
    generateLoop (fun _ => GenStep.piece ['a'] false) 0 (0 + 1) [] = [] ++ ['a'] ∧
    generateStreamLoop (fun _ => GenStep.piece ['a'] false) 0 (0 + 1) [] =
      [SinkEvent.onToken ['a']] ∧
    generateStream true true ⟨true, true, fun _ => GenStep.piece ['a'] false⟩ 1 =
      generateStreamLoop (fun _ => GenStep.piece ['a'] false) 0 (1 : Int).toNat [] ++
        [SinkEvent.onComplete] :=
  ⟨decode_failure_swallowed.1 (fun _ => GenStep.piece ['a'] false) 0 0 [] ['a'] rfl
      (by decide),
   decode_failure_swallowed.2.1 (fun _ => GenStep.piece ['a'] false) 0 0 [] ['a'] rfl
      (by decide),
   decode_failure_swallowed.2.2 ⟨true, true, fun _ => GenStep.piece ['a'] false⟩ 1
      rfl rfl⟩

/-- C7: with `useGpu = true`, a negative requested layer count resolves to
    the all-layers sentinel 99 when the Vulkan backend is available; when
    it is unavailable the resolved count is 0 regardless of the request,
    and `isUsingGpu` reports false on the handle the call returns. -/
theorem gpu_negotiation :
    (∀ g : Int, g < 0 → (resolveGpu true true g).2 = 99) ∧
    (∀ (env : LoadEnv) (g : Int), env.vulkanAvailable = false →
        (resolveGpu env.vulkanAvailable true g).2 = 0 ∧
        isUsingGpu (initModelWithGpu env true g).1 = false) := by
  constructor
  · intro g hg
    simp [resolveGpu, hg]
  · intro env g hva
    have hr : resolveGpu env.vulkanAvailable true g = (false, 0) := by
      simp [resolveGpu, hva]
    refine ⟨by rw [hr], ?_⟩
    cases hl : env.loadModel 0 with
    | none =>
      simp [initModelWithGpu, hr, loadWithFallback, hl, isUsingGpu]
    | some m =>
      cases h2 : env.newCtx m with
      | none => simp [initModelWithGpu, hr, loadWithFallback, hl, h2, isUsingGpu]
      | some c => simp [initModelWithGpu, hr, loadWithFallback, hl, h2, isUsingGpu]

/-- C7 witness: both negotiation facts evaluated concretely (request −1 on
    an available backend; request −1 on an unavailable backend). -/
theorem gpu_negotiation_witness :
    (resolveGpu true true (-1)).2 = 99 ∧
    (resolveGpu (LoadEnv.mk (fun _ => some 1) (fun _ => some 2) false).vulkanAvailable
        true (-1)).2 = 0 ∧
    isUsingGpu (initModelWithGpu ⟨fun _ => some 1, fun _ => some 2, false⟩
        true (-1)).1 = false :=
  ⟨gpu_negotiation.1 (-1) (by decide),
   (gpu_negotiation.2 ⟨fun _ => some 1, fun _ => some 2, false⟩ (-1) rfl).1,
   (gpu_negotiation.2 ⟨fun _ => some 1, fun _ => some 2, false⟩ (-1) rfl).2⟩

/-- C8: when the load with a resolved GPU layer count greater than 0 fails,
    exactly one retry with layer count 0 is attempted before any failure is
    reported; if the CPU retry (and the context build) succeeds, the call
    returns a handle (no error) whose introspection reports `isUsingGpu`
    false and `getGpuLayers` 0. -/
theorem gpu_fallback_retry :
    ∀ (env : LoadEnv) (u : Bool) (g : Int) (ga : Bool) (actual : Int),
      resolveGpu env.vulkanAvailable u g = (ga, actual) →
      env.loadModel actual = none → 0 < actual →
      loadAttemptsOf (initModelWithGpu env u g).2 = [actual, 0] ∧
      (∀ m c, env.loadModel 0 = some m → env.newCtx m = some c →
          (initModelWithGpu env u g).1 = some ⟨m, c, false, 0⟩ ∧
          isUsingGpu (initModelWithGpu env u g).1 = false ∧
          getGpuLayers (initModelWithGpu env u g).1 = 0) := by
  intro env u g ga actual hr hl hpos
  have hga : ga = true := by
    cases u with
    | false =>
      simp only [resolveGpu, Bool.false_eq_true, if_false] at hr
      injection hr with h1 h2
      rw [← h2] at hpos
      exact absurd hpos (lt_irrefl 0)
    | true =>
      cases hva : env.vulkanAvailable with
      | false =>
        rw [hva] at hr
        simp only [resolveGpu, Bool.false_eq_true, if_true, if_false] at hr
        injection hr with h1 h2
        rw [← h2] at hpos
        exact absurd hpos (lt_irrefl 0)
      | true =>
        rw [hva] at hr
        simp only [resolveGpu, if_true] at hr
        injection hr with h1 h2
        exact h1.symm
  subst hga
  have hkey : loadWithFallback env (resolveGpu env.vulkanAvailable u g).1
      (resolveGpu env.vulkanAvailable u g).2 =
      (env.loadModel 0, false, 0,
        [GEvent.loadAttempt actual, GEvent.loadAttempt 0]) := by
    rw [hr]
    show loadWithFallback env true actual = _
    unfold loadWithFallback
    rw [hl, if_pos ⟨rfl, hpos⟩]
  cases hl0 : env.loadModel 0 with
  | none =>
    rw [hl0] at hkey
    refine ⟨?_, ?_⟩
    · simp [initModelWithGpu, hkey, loadAttemptsOf]
    · intro m c hm _
      exact absurd hm (by simp)
  | some m =>
    rw [hl0] at hkey
    cases hc2 : env.newCtx m with
    | none =>
      refine ⟨?_, ?_⟩
      · simp [initModelWithGpu, hkey, hc2, loadAttemptsOf]
      · intro m' c hm hc
        injection hm with hmm
        subst hmm
        rw [hc2] at hc
        exact absurd hc (by simp)
    | some c =>
      refine ⟨?_, ?_⟩
      · simp [initModelWithGpu, hkey, hc2, loadAttemptsOf]
      · intro m' c' hm hc
        injection hm with hmm
        subst hmm
        rw [hc2] at hc
        injection hc with hcc
        subst hcc
        refine ⟨?_, ?_, ?_⟩ <;>
          simp [initModelWithGpu, hkey, hc2, isUsingGpu, getGpuLayers]

/-- C8 witness: a GPU-requested load that fails at 99 layers, retried once
    at 0 layers and succeeding, with the introspection results. -/
theorem gpu_fallback_retry_witness :
    loadAttemptsOf (initModelWithGpu
        ⟨fun n => if n = 0 then some 5 else none, fun _ => some 7, true⟩
        true (-1)).2 = [99, 0] ∧
    (initModelWithGpu ⟨fun n => if n = 0 then some 5 else none, fun _ => some 7, true⟩
        true (-1)).1 = some ⟨5, 7, false, 0⟩ ∧
    isUsingGpu (initModelWithGpu
        ⟨fun n => if n = 0 then some 5 else none, fun _ => some 7, true⟩
        true (-1)).1 = false ∧
    getGpuLayers (initModelWithGpu
        ⟨fun n => if n = 0 then some 5 else none, fun _ => some 7, true⟩
        true (-1)).1 = 0 := by
  have H := gpu_fallback_retry
    ⟨fun n => if n = 0 then some 5 else none, fun _ => some 7, true⟩
    true (-1) true 99 (by decide) (by decide) (by decide)
  have H2 := H.2 5 7 (by decide) rfl
  exact ⟨H.1, H2.1, H2.2.1, H2.2.2⟩

/-- C9: in all three session-creation paths, if the model load succeeds but
    the context build fails, the loaded model is released as the last
    native action before the call returns the failure handle 0. -/
theorem ctx_failure_releases_model :
    (∀ (env : LoadEnv) (m : Nat), env.loadModel 0 = some m → env.newCtx m = none →
        (initModel env).1 = none ∧
        (initModel env).2.getLast? = some (GEvent.freeModelEv m)) ∧
    (∀ (env : LoadEnv) (u : Bool) (g : Int) (m : Nat) (ga : Bool) (actual : Int)
        (evs : List GEvent),
        loadWithFallback env (resolveGpu env.vulkanAvailable u g).1
            (resolveGpu env.vulkanAvailable u g).2 = (some m, ga, actual, evs) →
        env.newCtx m = none →
        (initModelWithGpu env u g).1 = none ∧
        (initModelWithGpu env u g).2.getLast? = some (GEvent.freeModelEv m)) ∧
    (∀ (flag : Bool) (env : LoadEnv) (ne : Nat → Nat) (m : Nat),
        env.loadModel 0 = some m → env.newCtx m = none →
        (initEmbeddingModel flag env ne).2.1 = none ∧
        (initEmbeddingModel flag env ne).2.2.getLast? =
          some (GEvent.freeModelEv m)) := by
  refine ⟨?_, ?_, ?_⟩
  · intro env m hm hc
    refine ⟨by simp [initModel, hm, hc], ?_⟩
    rw [show (initModel env).2 =
        [GEvent.backendInit, GEvent.numaInit, GEvent.loadAttempt 0] ++
          [GEvent.ctxAttempt m, GEvent.freeModelEv m] from by
      simp [initModel, hm, hc]]
    exact getLast?_append_last _ rfl
  · intro env u g m ga actual evs hlw hc
    refine ⟨by simp [initModelWithGpu, hlw, hc], ?_⟩
    rw [show (initModelWithGpu env u g).2 =
        [GEvent.backendInit, GEvent.numaInit] ++
          (evs ++ [GEvent.ctxAttempt m, GEvent.freeModelEv m]) from by
      simp [initModelWithGpu, hlw, hc]]
    exact getLast?_append_last _ (getLast?_append_last _ rfl)
  · intro flag env ne m hm hc
    refine ⟨by cases flag <;> simp [initEmbeddingModel, hm, hc], ?_⟩
    cases flag with
    | true =>
      rw [show (initEmbeddingModel true env ne).2.2 =
          ([] : List GEvent) ++
            [GEvent.loadAttempt 0, GEvent.ctxAttempt m, GEvent.freeModelEv m] from by
        simp [initEmbeddingModel, hm, hc]]
      exact getLast?_append_last _ rfl
    | false =>
      rw [show (initEmbeddingModel false env ne).2.2 =
          [GEvent.backendInit, GEvent.numaInit] ++
            [GEvent.loadAttempt 0, GEvent.ctxAttempt m, GEvent.freeModelEv m] from by
        simp [initEmbeddingModel, hm, hc]]
      exact getLast?_append_last _ rfl

/-- C9 witness: context build failing after a successful model load in each
    of the three creation paths, on a concrete environment. -/
theorem ctx_failure_releases_model_witness :
    ((initModel ⟨fun _ => some 3, fun _ => none, false⟩).1 = none ∧
      (initModel ⟨fun _ => some 3, fun _ => none, false⟩).2.getLast? =
        some (GEvent.freeModelEv 3)) ∧
    ((initModelWithGpu ⟨fun _ => some 3, fun _ => none, false⟩ false 0).1 = none ∧
      (initModelWithGpu ⟨fun _ => some 3, fun _ => none, false⟩ false 0).2.getLast? =
        some (GEvent.freeModelEv 3)) ∧
    ((initEmbeddingModel false ⟨fun _ => some 3, fun _ => none, false⟩
        (fun _ => 384)).2.1 = none ∧
      (initEmbeddingModel false ⟨fun _ => some 3, fun _ => none, false⟩
        (fun _ => 384)).2.2.getLast? = some (GEvent.freeModelEv 3)) :=
  ⟨ctx_failure_releases_model.1 ⟨fun _ => some 3, fun _ => none, false⟩ 3 rfl rfl,
   ctx_failure_releases_model.2.1 ⟨fun _ => some 3, fun _ => none, false⟩ false 0 3
      false 0 [GEvent.loadAttempt 0] rfl rfl,
   ctx_failure_releases_model.2.2 false ⟨fun _ => some 3, fun _ => none, false⟩
      (fun _ => 384) 3 rfl rfl⟩

/-- C10: freeing any live nonzero generation handle always ends by tearing
    down the process-wide backend (`llama_backend_free` is the last native
    action, whatever other sessions the heap still holds), whereas
    `freeEmbeddingModel` never records a backend teardown on any path. -/
theorem freeModel_backend_teardown :
    (∀ (heap : List (Nat × Wrapper)) (h : Nat) (w : Wrapper), h ≠ 0 →
        List.lookup h heap = some w →
        (freeModel heap h).2.2.getLast? = some GEvent.backendFree) ∧
    (∀ (eheap : List (Nat × EWrapper)) (h : Nat),
        GEvent.backendFree ∉ (freeEmbeddingModel eheap h).2.2) := by
  constructor
  · intro heap h w hh hl
    rw [show (freeModel heap h).2.2 =
        (if w.ctx ≠ 0 then [GEvent.freeCtx w.ctx] else []) ++
          ((if w.model ≠ 0 then [GEvent.freeModelEv w.model] else []) ++
            [GEvent.backendFree]) from by simp [freeModel, hh, hl]]
    exact getLast?_append_last _ (getLast?_append_last _ rfl)
  · intro eheap h
    by_cases hh : h = 0
    · simp [freeEmbeddingModel, hh]
    · cases hl : List.lookup h eheap with
      | none => simp [freeEmbeddingModel, hh, hl]
      | some w =>
        simp only [freeEmbeddingModel, hh, hl, if_false]
        split <;> split <;> simp

/-- C10 witness: freeing handle 1 while a second live session (handle 2)
    remains in the heap, and a concrete embedding free. -/
theorem freeModel_backend_teardown_witness :
    (freeModel [(1, ⟨3, 4, false, 0⟩), (2, ⟨5, 6, true, 99⟩)] 1).2.2.getLast? =
      some GEvent.backendFree ∧
    GEvent.backendFree ∉ (freeEmbeddingModel [(4, ⟨11, 12, 384⟩)] 4).2.2 :=
  ⟨freeModel_backend_teardown.1 [(1, ⟨3, 4, false, 0⟩), (2, ⟨5, 6, true, 99⟩)] 1
      ⟨3, 4, false, 0⟩ (by decide) rfl,
   freeModel_backend_teardown.2 [(4, ⟨11, 12, 384⟩)] 4⟩

/-- C6: every successful `getEmbedding` call returns a vector of length
    exactly `getEmbeddingDimension` of the handle; when the raw pooled
    vector's Euclidean norm is strictly positive every component is divided
    by that norm (so the result's sum of squares is 1, i.e. its Euclidean
    norm is 1); when the norm is exactly 0 the raw vector is returned
    unchanged, with no division performed. -/
theorem getEmbedding_spec :
    ∀ (h : Option EWrapper) (env : EmbedEnv) (v : List ℝ),
      getEmbedding h env = some v →
      v.length = getEmbeddingDimension h ∧
      (0 < Real.sqrt (l2NormSq (rawVec h env)) →
        v = (rawVec h env).map
              (fun x => x / Real.sqrt (l2NormSq (rawVec h env))) ∧
        l2NormSq v = 1) ∧
      (Real.sqrt (l2NormSq (rawVec h env)) = 0 → v = rawVec h env) := by
  intro h env v hv
  cases h with
  | none => simp [getEmbedding] at hv
  | some w =>
    cases htok : env.tokenizeOk with
    | false => simp [getEmbedding, htok] at hv
    | true =>
      cases hdec : env.decodeOk with
      | false => simp [getEmbedding, htok, hdec] at hv
      | true =>
        cases hmem : env.seqEmbd.orElse (fun _ => env.ctxEmbd) with
        | none => simp [getEmbedding, htok, hdec, hmem] at hv
        | some mem =>
          cases hal : env.allocOk with
          | false => simp [getEmbedding, htok, hdec, hmem, hal] at hv
          | true =>
            have hv' : v = l2Normalize ((List.range w.nEmbd).map mem) := by
              simp [getEmbedding, htok, hdec, hmem, hal] at hv
              exact hv.symm
            have hraw : rawVec (some w) env = (List.range w.nEmbd).map mem := by
              simp [rawVec, hmem]
            rw [hraw]
            subst hv'
            refine ⟨?_, ?_, ?_⟩
            · rw [length_l2Normalize]
              simp [getEmbeddingDimension]
            · intro hpos
              have hR0 : (0 : ℝ) < l2NormSq ((List.range w.nEmbd).map mem) :=
                Real.sqrt_pos.mp hpos
              have hcne : Real.sqrt (l2NormSq ((List.range w.nEmbd).map mem)) ≠ 0 :=
                ne_of_gt hpos
              constructor
              · simp only [l2Normalize]
                rw [if_pos hpos]
              · simp only [l2Normalize]
                rw [if_pos hpos, l2NormSq_map_div _ hcne,
                  Real.mul_self_sqrt (le_of_lt hR0)]
                field_simp
            · intro hz
              simp only [l2Normalize]
              rw [if_neg (by rw [hz]; exact lt_irrefl 0)]

/-- C6 witness: a concrete embedding call on a 2-dimensional session whose
    raw pooled vector is the zero vector (norm exactly 0), returned
    unchanged with the correct length. -/
theorem getEmbedding_spec_witness :
    getEmbedding (some ⟨1, 2, 2⟩)
        ⟨true, true, some (fun _ => (0 : ℝ)), none, true⟩ = some [(0 : ℝ), 0] ∧
    ([(0 : ℝ), 0].length =
        getEmbeddingDimension (some (⟨1, 2, 2⟩ : EWrapper))) := by
  have h0 : getEmbedding (some ⟨1, 2, 2⟩)
      ⟨true, true, some (fun _ => (0 : ℝ)), none, true⟩ = some [(0 : ℝ), 0] := by
    have hr2 : (List.range 2).map (fun _ => (0 : ℝ)) = [(0 : ℝ), 0] := by
      simp [List.range_succ]
    have hn : l2Normalize [(0 : ℝ), 0] = [(0 : ℝ), 0] := by
      have hz : l2NormSq [(0 : ℝ), 0] = 0 := by
        simp [l2NormSq]
      simp only [l2Normalize, hz, Real.sqrt_zero]
      rw [if_neg (lt_irrefl 0)]
    simp only [getEmbedding, Option.orElse]
    simp [hr2, hn]
  refine ⟨h0, ?_⟩
  exact (getEmbedding_spec (some ⟨1, 2, 2⟩)
    ⟨true, true, some (fun _ => (0 : ℝ)), none, true⟩ [(0 : ℝ), 0] h0).1

end LlamaJNI
